import Mathlib

/-!
Shallow embedding of the valuation engine, exchange-rate lookup and
portfolio aggregation of `src/stock_app.py` (a single-file portfolio
dashboard).  Numeric cells are modelled as rationals; a pandas cell is a
numeric-or-string `Value`; the quote source (`yf.Tickers` plus per-ticker
`fast_info`) is an explicit oracle `QuoteSource`; the
`st.cache_data(ttl=3600)` wrapper around `get_exchange_rates` is an
explicit cache state threaded through the lookup.
-/

/-- Cell value of an output table: a pandas column holds floats, except the
yield-mode signal column which holds strings. -/
inductive Value where
  | num (q : ℚ)
  | str (s : String)
deriving DecidableEq

/-- Numeric reading of a cell (the columns summed by the aggregator only
ever hold numbers). -/
def Value.toRat : Value → ℚ
  | .num q => q
  | .str _ => 0

/-- One row of a holdings input table.  The app's tables carry exactly the
base columns (lines 20-21 of the source): `code, name, cost, qty` plus, for
yield markets, `exp_div, buy_yld, sell_yld`; a growth-market row leaves the
yield fields at zero since the growth branch never reads them.
`code = none` models a missing (NaN) identifier. -/
structure InputRow where
  code : Option String
  name : String
  cost : ℚ
  qty : ℚ
  exp_div : ℚ
  buy_yld : ℚ
  sell_yld : ℚ
deriving DecidableEq

/-- Result of the per-identifier `fast_info` lookup (source lines 93-95):
`fail` models any exception on that identifier (missing ticker entry,
missing field, error raised by the source); `ok` carries the two fields,
with `none` modelling a null (`None`) value. -/
inductive FetchResult where
  | fail
  | ok (last_price : Option ℚ) (previous_close : Option ℚ)
deriving DecidableEq

/-- The external quote source for one valuation pass: whether the batched
`yf.Tickers(tickers)` constructor call (line 83) succeeds, and the
per-identifier lookup outcomes. -/
structure QuoteSource where
  batch_ok : Bool
  fetch : String → FetchResult

/-- Source lines 92-109 for one identifier: resolve `(price, change_amt,
change_pct)`.  A `None` price or previous close is replaced by `0.0`
(lines 97-98); `change = price - prev if prev else 0` tests Python
truthiness, i.e. `prev ≠ 0`; the percent change divides only when
`prev > 0` (lines 101-102); any exception yields the zero triple
(lines 106-109). -/
def resolve_quote (qs : QuoteSource) (code : String) : ℚ × ℚ × ℚ :=
  match qs.fetch code with
  | .fail => (0, 0, 0)
  | .ok lp pc =>
      let price := lp.getD 0
      let prev := pc.getD 0
      let change := if prev ≠ 0 then price - prev else 0
      let pct := if prev > 0 then change / prev * 100 else 0
      (price, change, pct)

/-- Source line 77: a row survives the cleaning step when its `code` cell is
neither missing (`notna`) nor the empty string. -/
def code_present (r : InputRow) : Bool :=
  match r.code with
  | some c => c != ""
  | none => false

/-- An output row: the surviving input columns plus the nine derived columns
predeclared at line 71.  Every derived column is a `Value` cell; the
backfill loop (lines 72-74) initialises each to the float `0.0`. -/
structure AnnotatedRow where
  base : InputRow
  price : Value
  change_pct : Value
  change_amt : Value
  mkt_val_local : Value
  mkt_val_cny : Value
  profit_cny : Value
  yield_now : Value
  action : Value
  total_return_pct : Value
deriving DecidableEq

/-- Lines 70-74: the required-column backfill.  The app's input tables carry
only the base columns, so all nine derived columns are inserted with value
`0.0`. -/
def backfill (r : InputRow) : AnnotatedRow :=
  ⟨r, .num 0, .num 0, .num 0, .num 0, .num 0, .num 0, .num 0, .num 0, .num 0⟩

/-- Lines 123-127: the per-row signal of the yield strategy, evaluated in
source order (data-error check first, then buy, then sell, else hold). -/
def get_signal (price yield_now buy_yld sell_yld : ℚ) : String :=
  if price ≤ 0 then "❌"
  else if yield_now ≥ buy_yld then "🟢 买入"
  else if yield_now ≤ sell_yld then "🔴 卖出"
  else "⚪ 持有"

/-- Lines 91-131 restricted to a single surviving row: resolve the quote,
derive the value columns (lines 111-118), then run the strategy block
selected by `mode` (lines 121-131); a mode string other than `"yield"` and
`"growth"` leaves the backfilled zeros in place, exactly as the source's
`if`/`elif` chain does. -/
def annotate_row (qs : QuoteSource) (currency_rate : ℚ) (mode : String)
    (r : InputRow) : AnnotatedRow :=
  let res := resolve_quote qs (r.code.getD "")
  let price := res.1
  let change := res.2.1
  let pct := res.2.2
  let mkt_val_local := price * r.qty
  let mkt_val_cny := mkt_val_local * currency_rate
  let profit_cny := (price - r.cost) * r.qty * currency_rate
  let yld := if price > 0 then r.exp_div / price * 100 else 0
  let tr := if r.cost > 0 then (price - r.cost) / r.cost * 100 else 0
  if mode = "yield" then
    ⟨r, .num price, .num pct, .num change, .num mkt_val_local, .num mkt_val_cny,
      .num profit_cny, .num yld,
      .str (get_signal price yld r.buy_yld r.sell_yld), .num 0⟩
  else if mode = "growth" then
    ⟨r, .num price, .num pct, .num change, .num mkt_val_local, .num mkt_val_cny,
      .num profit_cny, .num 0, .num 0, .num tr⟩
  else
    ⟨r, .num price, .num pct, .num change, .num mkt_val_local, .num mkt_val_cny,
      .num profit_cny, .num 0, .num 0, .num 0⟩

/-- Lines 67-133: `calculate_market_data`.  Backfill the derived columns,
drop rows without an identifier, return the empty frame without touching
the quote source when nothing survives (line 78); if the batched
`yf.Tickers` call raises, return the filtered frame with its backfilled
zeros (lines 82-85); otherwise annotate each surviving row from the quote
source.  The function is total: no exception escapes it. -/
def calculate_market_data (input : List InputRow) (currency_rate : ℚ)
    (mode : String) (qs : QuoteSource) : List AnnotatedRow :=
  let rows := input.filter code_present
  if rows.isEmpty then []
  else if !qs.batch_ok then rows.map backfill
  else rows.map (annotate_row qs currency_rate mode)

/-- Outcome of the live exchange-rate fetch inside `get_exchange_rates`
(lines 49-51): either both `last_price` fields arrive, or some exception is
raised. -/
inductive RateFetch where
  | ok (usd_cny sgd_cny : ℚ)
  | fail
deriving DecidableEq

/-- Lines 47-54: the body of `get_exchange_rates`.  On any exception the
hardcoded pair (7.2, 5.3) is returned; a successful fetch is returned
unchecked. -/
def get_exchange_rates (f : RateFetch) : ℚ × ℚ :=
  match f with
  | .ok u s => (u, s)
  | .fail => (7.2, 5.3)

/-- State of the `st.cache_data` entry for `get_exchange_rates`: the last
return value stored, if any, and the second at which it was stored. -/
structure RateCacheState where
  value : Option (ℚ × ℚ)
  stored_at : ℕ
deriving DecidableEq

/-- The `ttl=3600` of the cache decorator at line 46. -/
def rate_cache_ttl : ℕ := 3600

/-- The `st.cache_data(ttl=3600)` wrapper at line 46: a stored value younger
than the ttl is returned without running the function at all; otherwise the
body runs on the live fetch outcome and its return value — including the
except-branch fallback — becomes the new cache entry. -/
def cached_exchange_rates (s : RateCacheState) (now : ℕ) (f : RateFetch) :
    (ℚ × ℚ) × RateCacheState :=
  match s.value with
  | some v =>
      if now - s.stored_at < rate_cache_ttl then (v, s)
      else (get_exchange_rates f, ⟨some (get_exchange_rates f), now⟩)
  | none => (get_exchange_rates f, ⟨some (get_exchange_rates f), now⟩)

/-- Column sum `df['mkt_val_cny'].sum()`. -/
def sum_mkt_val_cny (rows : List AnnotatedRow) : ℚ :=
  (rows.map (fun r => r.mkt_val_cny.toRat)).sum

/-- Column sum `df['profit_cny'].sum()`. -/
def sum_profit_cny (rows : List AnnotatedRow) : ℚ :=
  (rows.map (fun r => r.profit_cny.toRat)).sum

/-- Lines 147-150: total stock value plus converted cash plus converted
bond value. -/
def net_worth (df_cn df_sg df_us : List AnnotatedRow)
    (cash_cny cash_sgd cash_usd bond_usd_val usd_rate sgd_rate : ℚ) : ℚ :=
  let total_stock_cny := sum_mkt_val_cny df_cn + sum_mkt_val_cny df_sg
    + sum_mkt_val_cny df_us
  let total_cash_cny := cash_cny + cash_sgd * sgd_rate + cash_usd * usd_rate
  let total_bond_cny := bond_usd_val * usd_rate
  total_stock_cny + total_cash_cny + total_bond_cny

/-- Line 153: sum of `profit_cny` over the three markets. -/
def total_profit (df_cn df_sg df_us : List AnnotatedRow) : ℚ :=
  sum_profit_cny df_cn + sum_profit_cny df_sg + sum_profit_cny df_us

/-- Lines 154-156: per-market sums of `change_amt * qty` (times the market
rate for the non-CNY markets). -/
def total_day_gain (df_cn df_sg df_us : List AnnotatedRow)
    (sgd_rate usd_rate : ℚ) : ℚ :=
  (df_cn.map (fun r => r.change_amt.toRat * r.base.qty)).sum
  + (df_sg.map (fun r => r.change_amt.toRat * r.base.qty * sgd_rate)).sum
  + (df_us.map (fun r => r.change_amt.toRat * r.base.qty * usd_rate)).sum

/-- Spec-side formula: total stock value as the sum of `mkt_val_cny` over a
collection of annotated market tables (each paired with its rate). -/
def spec_total_stock (markets : List (List AnnotatedRow × ℚ)) : ℚ :=
  (markets.map (fun m => sum_mkt_val_cny m.1)).sum

/-- Spec-side formula: total day change as the sum over all positions of
`change_amt * qty * rate`. -/
def spec_total_day_change (markets : List (List AnnotatedRow × ℚ)) : ℚ :=
  (markets.map
    (fun m => (m.1.map (fun r => r.change_amt.toRat * r.base.qty * m.2)).sum)).sum

/-- Spec-side formula: total profit as the sum of `profit_cny` over all
positions. -/
def spec_total_profit (markets : List (List AnnotatedRow × ℚ)) : ℚ :=
  (markets.map (fun m => sum_profit_cny m.1)).sum

/-- Sample yield-market row (the seed row of line 25). -/
def sampleRow : InputRow :=
  ⟨some "601919.SS", "cosco", 10, 1000, 3/2, 12, 5⟩

/-- Sample growth-market row (seed row of line 36). -/
def usRow : InputRow :=
  ⟨some "VOO", "sp500", 400, 10, 0, 0, 0⟩

/-- A row whose identifier cell is the empty string. -/
def blankRow : InputRow := ⟨some "", "blank", 1, 1, 0, 0, 0⟩

/-- A row whose identifier cell is missing (NaN). -/
def nanRow : InputRow := ⟨none, "nan", 1, 1, 0, 0, 0⟩

/-- A quote source that answers every identifier with price 10, previous
close 9.9. -/
def goodSource : QuoteSource :=
  ⟨true, fun _ => .ok (some 10) (some (99/10))⟩

/-- A quote source that answers price 440, previous close 430. -/
def src440 : QuoteSource :=
  ⟨true, fun _ => .ok (some 440) (some 430)⟩

/-- A quote source whose per-identifier lookups all raise. -/
def failSource : QuoteSource := ⟨true, fun _ => .fail⟩

/-- A quote source whose batched constructor call raises. -/
def batchFailSource : QuoteSource := ⟨false, fun _ => .fail⟩

/-- A quote source returning a null last price with a live previous close. -/
def nullPriceSource : QuoteSource :=
  ⟨true, fun _ => .ok none (some (99/10))⟩

/-- A quote source returning a negative previous close. -/
def negPrevSource : QuoteSource :=
  ⟨true, fun _ => .ok (some 5) (some (-1))⟩

/-- Helper: every output row of `calculate_market_data` arises from a
surviving input row, via `annotate_row` on batch success and via `backfill`
on batch failure. -/
lemma mem_calculate_market_data {input : List InputRow} {rate : ℚ}
    {mode : String} {qs : QuoteSource} {a : AnnotatedRow}
    (ha : a ∈ calculate_market_data input rate mode qs) :
    ∃ r ∈ input.filter code_present,
      (qs.batch_ok = true ∧ a = annotate_row qs rate mode r) ∨
      (qs.batch_ok = false ∧ a = backfill r) := by
  unfold calculate_market_data at ha
  by_cases h : (input.filter code_present).isEmpty
  · simp [h] at ha
  · cases hb : qs.batch_ok with
    | true =>
        simp [h, hb] at ha
        obtain ⟨r, hr, hra⟩ := ha
        exact ⟨r, List.mem_filter.mpr ⟨hr.1, hr.2⟩, Or.inl ⟨rfl, hra.symm⟩⟩
    | false =>
        simp [h, hb] at ha
        obtain ⟨r, hr, hra⟩ := ha
        exact ⟨r, List.mem_filter.mpr ⟨hr.1, hr.2⟩, Or.inr ⟨rfl, hra.symm⟩⟩

/-- Helper: the base columns of an annotated row are the input row. -/
lemma annotate_row_base (qs : QuoteSource) (rate : ℚ) (mode : String)
    (r : InputRow) : (annotate_row qs rate mode r).base = r := by
  unfold annotate_row
  split_ifs <;> rfl

/-- C1: for every non-empty input table whose rows all carry a non-blank
identifier, every row returned by `calculate_market_data` has all nine
derived columns populated with a (finite) numeric value — except that in
yield mode the `action` column may instead hold a signal string — in both
yield and growth modes, on the fetch-success and the fetch-failure path. -/
theorem c1_all_derived_columns_populated (input : List InputRow) (rate : ℚ)
    (mode : String) (qs : QuoteSource) (hne : input ≠ [])
    (hid : ∀ r ∈ input, code_present r = true)
    (hmode : mode = "yield" ∨ mode = "growth") :
    ∀ a ∈ calculate_market_data input rate mode qs,
      (∃ q, a.price = Value.num q) ∧ (∃ q, a.change_pct = Value.num q) ∧
      (∃ q, a.change_amt = Value.num q) ∧ (∃ q, a.mkt_val_local = Value.num q) ∧
      (∃ q, a.mkt_val_cny = Value.num q) ∧ (∃ q, a.profit_cny = Value.num q) ∧
      (∃ q, a.yield_now = Value.num q) ∧ (∃ q, a.total_return_pct = Value.num q) ∧
      ((∃ q, a.action = Value.num q) ∨
        (mode = "yield" ∧ ∃ s, a.action = Value.str s)) := by
  intro a ha
  obtain ⟨r, _, h | h⟩ := mem_calculate_market_data ha
  · obtain ⟨_, rfl⟩ := h
    rcases hmode with rfl | rfl
    · exact ⟨⟨_, rfl⟩, ⟨_, rfl⟩, ⟨_, rfl⟩, ⟨_, rfl⟩, ⟨_, rfl⟩, ⟨_, rfl⟩,
        ⟨_, rfl⟩, ⟨_, rfl⟩, Or.inr ⟨rfl, _, rfl⟩⟩
    · exact ⟨⟨_, rfl⟩, ⟨_, rfl⟩, ⟨_, rfl⟩, ⟨_, rfl⟩, ⟨_, rfl⟩, ⟨_, rfl⟩,
        ⟨_, rfl⟩, ⟨_, rfl⟩, Or.inl ⟨_, rfl⟩⟩
  · obtain ⟨_, rfl⟩ := h
    exact ⟨⟨_, rfl⟩, ⟨_, rfl⟩, ⟨_, rfl⟩, ⟨_, rfl⟩, ⟨_, rfl⟩, ⟨_, rfl⟩,
      ⟨_, rfl⟩, ⟨_, rfl⟩, Or.inl ⟨_, rfl⟩⟩

/-- C1 witness: the guarantee instantiated on the seed row against a live
quote source in yield mode. -/
theorem c1_witness :
    (∃ q, (annotate_row goodSource 1 "yield" sampleRow).price = Value.num q) ∧
    (∃ q, (annotate_row goodSource 1 "yield" sampleRow).change_pct = Value.num q) ∧
    (∃ q, (annotate_row goodSource 1 "yield" sampleRow).change_amt = Value.num q) ∧
    (∃ q, (annotate_row goodSource 1 "yield" sampleRow).mkt_val_local = Value.num q) ∧
    (∃ q, (annotate_row goodSource 1 "yield" sampleRow).mkt_val_cny = Value.num q) ∧
    (∃ q, (annotate_row goodSource 1 "yield" sampleRow).profit_cny = Value.num q) ∧
    (∃ q, (annotate_row goodSource 1 "yield" sampleRow).yield_now = Value.num q) ∧
    (∃ q, (annotate_row goodSource 1 "yield" sampleRow).total_return_pct = Value.num q) ∧
    ((∃ q, (annotate_row goodSource 1 "yield" sampleRow).action = Value.num q) ∨
      ("yield" = "yield" ∧
        ∃ s, (annotate_row goodSource 1 "yield" sampleRow).action = Value.str s)) :=
  c1_all_derived_columns_populated [sampleRow] 1 "yield" goodSource (by decide)
    (by decide) (Or.inl rfl) (annotate_row goodSource 1 "yield" sampleRow)
    (by exact List.mem_singleton.mpr rfl)

/-- C3: the output carries exactly one row, in input order, for every input
row with a present, non-empty identifier (its base columns are preserved),
the row-count invariant holds, and when the filtered table is empty the
result is empty for every quote source — the quote source is never
consulted. -/
theorem c3_row_filtering (input : List InputRow) (rate : ℚ) (mode : String)
    (qs : QuoteSource) :
    (calculate_market_data input rate mode qs).map AnnotatedRow.base
      = input.filter code_present ∧
    (calculate_market_data input rate mode qs).length
      = (input.filter code_present).length ∧
    ((input.filter code_present).isEmpty = true →
      ∀ qs2 : QuoteSource, calculate_market_data input rate mode qs2 = []) := by
  have key : ∀ qs2 : QuoteSource,
      (calculate_market_data input rate mode qs2).map AnnotatedRow.base
        = input.filter code_present := by
    intro qs2
    simp only [calculate_market_data]
    by_cases h : (input.filter code_present).isEmpty = true
    · rw [if_pos h, List.isEmpty_iff.mp h]; rfl
    · rw [if_neg h]
      cases hb : qs2.batch_ok
      · rw [if_pos (by simp [hb]), List.map_map]
        have hc : AnnotatedRow.base ∘ backfill = id := funext (fun r => rfl)
        rw [hc, List.map_id]
      · rw [if_neg (by simp [hb]), List.map_map]
        have hc : AnnotatedRow.base ∘ annotate_row qs2 rate mode = id :=
          funext (fun r => annotate_row_base qs2 rate mode r)
        rw [hc, List.map_id]
  refine ⟨key qs, ?_, ?_⟩
  · rw [← key qs, List.length_map]
  · intro h qs2
    have hk := key qs2
    rw [List.isEmpty_iff.mp h] at hk
    exact List.map_eq_nil_iff.mp hk

/-- C3 witness: a table of one blank-code row and one missing-code row
filters to nothing and yields the empty output even for a failing source. -/
theorem c3_witness :
    calculate_market_data [blankRow, nanRow] 1 "yield" batchFailSource = [] :=
  (c3_row_filtering [blankRow, nanRow] 1 "yield" goodSource).2.2 (by decide)
    batchFailSource

/-- C6: when the batched quote request raises, `calculate_market_data`
returns the filtered input rows with every derived column equal to zero;
the function is total, so the exception never reaches the caller. -/
theorem c6_batch_failure_all_zero (input : List InputRow) (rate : ℚ)
    (mode : String) (qs : QuoteSource) (h : qs.batch_ok = false) :
    calculate_market_data input rate mode qs
      = (input.filter code_present).map backfill ∧
    ∀ a ∈ calculate_market_data input rate mode qs,
      a.price = Value.num 0 ∧ a.change_pct = Value.num 0 ∧
      a.change_amt = Value.num 0 ∧ a.mkt_val_local = Value.num 0 ∧
      a.mkt_val_cny = Value.num 0 ∧ a.profit_cny = Value.num 0 ∧
      a.yield_now = Value.num 0 ∧ a.action = Value.num 0 ∧
      a.total_return_pct = Value.num 0 := by
  have heq : calculate_market_data input rate mode qs
      = (input.filter code_present).map backfill := by
    simp only [calculate_market_data]
    by_cases he : (input.filter code_present).isEmpty = true
    · rw [if_pos he, List.isEmpty_iff.mp he]; rfl
    · rw [if_neg he, if_pos (by simp [h])]
  refine ⟨heq, ?_⟩
  intro a ha
  rw [heq] at ha
  obtain ⟨r, _, rfl⟩ := List.mem_map.mp ha
  exact ⟨rfl, rfl, rfl, rfl, rfl, rfl, rfl, rfl, rfl⟩

/-- C6 witness: batch failure on the seed row returns the backfilled row. -/
theorem c6_witness :
    calculate_market_data [sampleRow] 1 "yield" batchFailSource
      = [backfill sampleRow] :=
  (c6_batch_failure_all_zero [sampleRow] 1 "yield" batchFailSource rfl).1

/-- C10: the output always carries the other strategy mode's columns
defaulted to the float 0.0: in growth mode `action` and `yield_now` are the
number zero (never a signal string), and in yield mode `total_return_pct`
is zero. -/
theorem c10_other_mode_columns_zero (input : List InputRow) (rate : ℚ)
    (qs : QuoteSource) :
    (∀ a ∈ calculate_market_data input rate "growth" qs,
       a.action = Value.num 0 ∧ a.yield_now = Value.num 0) ∧
    (∀ a ∈ calculate_market_data input rate "yield" qs,
       a.total_return_pct = Value.num 0) := by
  constructor
  · intro a ha
    obtain ⟨r, _, h | h⟩ := mem_calculate_market_data ha
    · obtain ⟨_, rfl⟩ := h; exact ⟨rfl, rfl⟩
    · obtain ⟨_, rfl⟩ := h; exact ⟨rfl, rfl⟩
  · intro a ha
    obtain ⟨r, _, h | h⟩ := mem_calculate_market_data ha
    · obtain ⟨_, rfl⟩ := h; exact rfl
    · obtain ⟨_, rfl⟩ := h; exact rfl

/-- C10 witness: the growth-mode output of the seed US row has numeric zero
`action` and `yield_now`. -/
theorem c10_witness :
    (annotate_row src440 1 "growth" usRow).action = Value.num 0 ∧
    (annotate_row src440 1 "growth" usRow).yield_now = Value.num 0 :=
  (c10_other_mode_columns_zero [usRow] 1 src440).1
    (annotate_row src440 1 "growth" usRow) (by exact List.mem_singleton.mpr rfl)

/-- Helper: the signal is the data-error marker whenever the price is
non-positive. -/
lemma get_signal_of_nonpos (price yld b s : ℚ) (h : price ≤ 0) :
    get_signal price yld b s = "❌" := by
  unfold get_signal; rw [if_pos h]

/-- Helper: the buy check fires first whenever the yield reaches the buy
threshold and the price is positive. -/
lemma get_signal_of_buy (price yld b s : ℚ) (h : ¬price ≤ 0) (hb : yld ≥ b) :
    get_signal price yld b s = "🟢 买入" := by
  unfold get_signal; rw [if_neg h, if_pos hb]

/-- Helper: the sell branch fires only after the buy check failed. -/
lemma get_signal_of_sell (price yld b s : ℚ) (h : ¬price ≤ 0)
    (hb : ¬yld ≥ b) (hs : yld ≤ s) :
    get_signal price yld b s = "🔴 卖出" := by
  unfold get_signal; rw [if_neg h, if_neg hb, if_pos hs]

/-- Helper: the hold branch is the final fallback. -/
lemma get_signal_of_hold (price yld b s : ℚ) (h : ¬price ≤ 0)
    (hb : ¬yld ≥ b) (hs : ¬yld ≤ s) :
    get_signal price yld b s = "⚪ 持有" := by
  unfold get_signal; rw [if_neg h, if_neg hb, if_neg hs]

/-- Helper: the price cell of a growth-mode row. -/
lemma annotate_row_growth_price (qs : QuoteSource) (rate : ℚ) (r : InputRow) :
    (annotate_row qs rate "growth" r).price
      = Value.num (resolve_quote qs (r.code.getD "")).1 := rfl

/-- Helper: the total-return cell of a growth-mode row. -/
lemma annotate_row_growth_total_return (qs : QuoteSource) (rate : ℚ)
    (r : InputRow) :
    (annotate_row qs rate "growth" r).total_return_pct
      = Value.num (if r.cost > 0
          then ((resolve_quote qs (r.code.getD "")).1 - r.cost) / r.cost * 100
          else 0) := rfl

/-- C4: in yield mode, `yield_now` is `exp_div / price * 100` for a positive
price and `0` otherwise, and the signal follows the source's decision order:
non-positive price gives the data-error marker regardless of thresholds,
then the buy check, then the sell check, then hold — so with
`buy_yld < sell_yld` and both conditions holding, the buy branch wins. -/
theorem c4_yield_now_and_signal_order (input : List InputRow) (rate : ℚ)
    (qs : QuoteSource) (hb : qs.batch_ok = true) :
    ∀ a ∈ calculate_market_data input rate "yield" qs, ∃ p y,
      a.price = Value.num p ∧ a.yield_now = Value.num y ∧
      (p > 0 → y = a.base.exp_div / p * 100) ∧ (¬p > 0 → y = 0) ∧
      (p ≤ 0 → a.action = Value.str "❌") ∧
      (¬p ≤ 0 → y ≥ a.base.buy_yld → a.action = Value.str "🟢 买入") ∧
      (¬p ≤ 0 → ¬y ≥ a.base.buy_yld → y ≤ a.base.sell_yld →
        a.action = Value.str "🔴 卖出") ∧
      (¬p ≤ 0 → ¬y ≥ a.base.buy_yld → ¬y ≤ a.base.sell_yld →
        a.action = Value.str "⚪ 持有") ∧
      (¬p ≤ 0 → a.base.buy_yld < a.base.sell_yld → y ≥ a.base.buy_yld →
        y ≤ a.base.sell_yld → a.action = Value.str "🟢 买入") := by
  intro a ha
  obtain ⟨r, _, h | h⟩ := mem_calculate_market_data ha
  · obtain ⟨_, rfl⟩ := h
    refine ⟨(resolve_quote qs (r.code.getD "")).1,
      if (resolve_quote qs (r.code.getD "")).1 > 0
        then r.exp_div / (resolve_quote qs (r.code.getD "")).1 * 100 else 0,
      rfl, rfl, ?_, ?_, ?_, ?_, ?_, ?_, ?_⟩
    · intro hp; rw [if_pos hp, annotate_row_base]
    · intro hp; rw [if_neg hp]
    · intro hp
      exact congrArg Value.str (get_signal_of_nonpos _ _ _ _ hp)
    · intro hp hy
      exact congrArg Value.str (get_signal_of_buy _ _ _ _ hp hy)
    · intro hp hy hs
      exact congrArg Value.str (get_signal_of_sell _ _ _ _ hp hy hs)
    · intro hp hy hs
      exact congrArg Value.str (get_signal_of_hold _ _ _ _ hp hy hs)
    · intro hp _ hy _
      exact congrArg Value.str (get_signal_of_buy _ _ _ _ hp hy)
  · obtain ⟨h1, rfl⟩ := h
    rw [hb] at h1
    exact absurd h1 (by decide)

/-- C4 witness: the seed yield row at price 10 has a 15% yield, above its
buy threshold of 12. -/
theorem c4_witness :
    ∃ p y,
      (annotate_row goodSource 1 "yield" sampleRow).price = Value.num p ∧
      (annotate_row goodSource 1 "yield" sampleRow).yield_now = Value.num y ∧
      (p > 0 →
        y = (annotate_row goodSource 1 "yield" sampleRow).base.exp_div / p * 100) ∧
      (¬p > 0 → y = 0) ∧
      (p ≤ 0 →
        (annotate_row goodSource 1 "yield" sampleRow).action = Value.str "❌") ∧
      (¬p ≤ 0 →
        y ≥ (annotate_row goodSource 1 "yield" sampleRow).base.buy_yld →
        (annotate_row goodSource 1 "yield" sampleRow).action
          = Value.str "🟢 买入") ∧
      (¬p ≤ 0 →
        ¬y ≥ (annotate_row goodSource 1 "yield" sampleRow).base.buy_yld →
        y ≤ (annotate_row goodSource 1 "yield" sampleRow).base.sell_yld →
        (annotate_row goodSource 1 "yield" sampleRow).action
          = Value.str "🔴 卖出") ∧
      (¬p ≤ 0 →
        ¬y ≥ (annotate_row goodSource 1 "yield" sampleRow).base.buy_yld →
        ¬y ≤ (annotate_row goodSource 1 "yield" sampleRow).base.sell_yld →
        (annotate_row goodSource 1 "yield" sampleRow).action
          = Value.str "⚪ 持有") ∧
      (¬p ≤ 0 →
        (annotate_row goodSource 1 "yield" sampleRow).base.buy_yld
          < (annotate_row goodSource 1 "yield" sampleRow).base.sell_yld →
        y ≥ (annotate_row goodSource 1 "yield" sampleRow).base.buy_yld →
        y ≤ (annotate_row goodSource 1 "yield" sampleRow).base.sell_yld →
        (annotate_row goodSource 1 "yield" sampleRow).action
          = Value.str "🟢 买入") :=
  c4_yield_now_and_signal_order [sampleRow] 1 goodSource rfl
    (annotate_row goodSource 1 "yield" sampleRow) (List.mem_singleton.mpr rfl)

/-- C9: in growth mode `total_return_pct` is `(price - cost) / cost * 100`
for a positive cost basis and `0` otherwise, so no division by zero occurs;
in particular cost 400 with fetched price 440 returns 10. -/
theorem c9_growth_total_return (input : List InputRow) (rate : ℚ)
    (qs : QuoteSource) (hb : qs.batch_ok = true) :
    (∀ a ∈ calculate_market_data input rate "growth" qs, ∀ p,
       a.price = Value.num p →
       a.total_return_pct = Value.num
         (if a.base.cost > 0 then (p - a.base.cost) / a.base.cost * 100
          else 0)) ∧
    (calculate_market_data [usRow] 1 "growth" src440).map
        (fun a => a.total_return_pct) = [Value.num 10] := by
  constructor
  · intro a ha p hp
    obtain ⟨r, _, h | h⟩ := mem_calculate_market_data ha
    · obtain ⟨_, rfl⟩ := h
      rw [annotate_row_growth_price] at hp
      injection hp with hp'
      rw [annotate_row_growth_total_return, annotate_row_base, hp']
    · obtain ⟨h1, rfl⟩ := h
      rw [hb] at h1
      exact absurd h1 (by decide)
  · have hc : calculate_market_data [usRow] 1 "growth" src440
        = [annotate_row src440 1 "growth" usRow] := rfl
    rw [hc, List.map_singleton, annotate_row_growth_total_return]
    norm_num [resolve_quote, src440, usRow]

/-- C9 witness: the spec scenario, cost 400 and price 440 give 10 percent. -/
theorem c9_witness :
    (calculate_market_data [usRow] 1 "growth" src440).map
      (fun a => a.total_return_pct) = [Value.num 10] :=
  (c9_growth_total_return [usRow] 1 src440 rfl).2

/-- Helper: the change-amount cell of a yield-mode row. -/
lemma annotate_row_yield_change_amt (qs : QuoteSource) (rate : ℚ)
    (r : InputRow) :
    (annotate_row qs rate "yield" r).change_amt
      = Value.num (resolve_quote qs (r.code.getD "")).2.1 := rfl

/-- Helper: the change-percent cell of a yield-mode row. -/
lemma annotate_row_yield_change_pct (qs : QuoteSource) (rate : ℚ)
    (r : InputRow) :
    (annotate_row qs rate "yield" r).change_pct
      = Value.num (resolve_quote qs (r.code.getD "")).2.2 := rfl

/-- Helper: a row's annotation depends on the quote source only through the
lookup result of that row's own identifier. -/
lemma annotate_row_congr (qs qs2 : QuoteSource) (rate : ℚ) (mode : String)
    (r : InputRow) (h : qs.fetch (r.code.getD "") = qs2.fetch (r.code.getD "")) :
    annotate_row qs rate mode r = annotate_row qs2 rate mode r := by
  unfold annotate_row resolve_quote
  rw [h]

/-- C2 counterexample: a null last price together with a live previous close
of 9.9 is a per-identifier fetch failure in the claim's list, yet the row
receives `change_amt = -9.9` and `change_pct = -100`, not the claimed
zeros. -/
theorem c2_counterexample :
    (calculate_market_data [sampleRow] 1 "yield" nullPriceSource).map
        (fun a => a.change_amt) = [Value.num (-(99/10))] ∧
    (calculate_market_data [sampleRow] 1 "yield" nullPriceSource).map
        (fun a => a.change_pct) = [Value.num (-100)] ∧
    Value.num (-(99/10)) ≠ Value.num 0 ∧ Value.num (-100) ≠ Value.num 0 := by
  have hc : calculate_market_data [sampleRow] 1 "yield" nullPriceSource
      = [annotate_row nullPriceSource 1 "yield" sampleRow] := rfl
  refine ⟨?_, ?_, ?_, ?_⟩
  · rw [hc, List.map_singleton, annotate_row_yield_change_amt]
    norm_num [resolve_quote, nullPriceSource, sampleRow]
  · rw [hc, List.map_singleton, annotate_row_yield_change_pct]
    norm_num [resolve_quote, nullPriceSource, sampleRow]
  · norm_num
  · norm_num

/-- C2 amended: a per-identifier lookup that raises (missing entry, missing
field, exception) is substituted by `price = 0, change_amt = 0,
change_pct = 0`; a null last price only zeroes the price — with a positive
previous close `p` the row gets `change_amt = -p` and `change_pct = -100`;
and one identifier's outcome never affects any other row of the batch. -/
theorem c2_amended_per_identifier (qs : QuoteSource) (code : String) (p : ℚ) :
    (qs.fetch code = FetchResult.fail → resolve_quote qs code = (0, 0, 0)) ∧
    (p > 0 → qs.fetch code = FetchResult.ok none (some p) →
      resolve_quote qs code = (0, -p, -100)) ∧
    (∀ (input : List InputRow) (rate : ℚ) (mode : String) (qs2 : QuoteSource)
       (i : ℕ) (r : InputRow),
       qs.batch_ok = true → qs2.batch_ok = true →
       (input.filter code_present)[i]? = some r →
       qs.fetch (r.code.getD "") = qs2.fetch (r.code.getD "") →
       (calculate_market_data input rate mode qs)[i]?
         = (calculate_market_data input rate mode qs2)[i]?) := by
  refine ⟨?_, ?_, ?_⟩
  · intro h
    unfold resolve_quote
    rw [h]
  · intro hp h
    have hne : p ≠ 0 := ne_of_gt hp
    unfold resolve_quote
    rw [h]
    simp only [Option.getD_some, Option.getD_none]
    rw [if_pos hne, if_pos hp]
    rw [zero_sub, neg_div, div_self hne]
    norm_num
  · intro input rate mode qs2 i r h1 h2 hget hfetch
    have hne : (input.filter code_present).isEmpty = false := by
      cases he : (input.filter code_present).isEmpty
      · rfl
      · rw [List.isEmpty_iff.mp he] at hget
        simp at hget
    simp only [calculate_market_data]
    rw [hne, h1, h2]
    simp [List.getElem?_map, hget]
    exact annotate_row_congr qs qs2 rate mode r hfetch

/-- C2 witness: an identifier whose lookup raises resolves to the zero
triple. -/
theorem c2_witness :
    resolve_quote failSource "601919.SS" = (0, 0, 0) :=
  (c2_amended_per_identifier failSource "601919.SS" 1).1 rfl

/-- C5 counterexample: with a fetched previous close of -1 and a price of 5,
the claim says `change_amt = 0`, but the code's `if prev` truthiness test
lets the negative previous close through: `change_amt = 6`. -/
theorem c5_counterexample :
    (calculate_market_data [sampleRow] 1 "yield" negPrevSource).map
        (fun a => a.change_amt) = [Value.num 6] ∧
    Value.num 6 ≠ Value.num 0 ∧
    (calculate_market_data [sampleRow] 1 "yield" negPrevSource).map
        (fun a => a.change_pct) = [Value.num 0] := by
  have hc : calculate_market_data [sampleRow] 1 "yield" negPrevSource
      = [annotate_row negPrevSource 1 "yield" sampleRow] := rfl
  refine ⟨?_, ?_, ?_⟩
  · rw [hc, List.map_singleton, annotate_row_yield_change_amt]
    norm_num [resolve_quote, negPrevSource, sampleRow]
  · norm_num
  · rw [hc, List.map_singleton, annotate_row_yield_change_pct]
    norm_num [resolve_quote, negPrevSource, sampleRow]

/-- C5 amended: for a fetched previous close that is missing, null or zero,
both `change_amt` and `change_pct` are zero; for any non-positive previous
close `change_pct` is zero, but a strictly negative previous close gives
`change_amt = price - previous_close`, not zero. -/
theorem c5_amended_nonpositive_prev (qs : QuoteSource) (code : String)
    (lp pc : Option ℚ) (h : qs.fetch code = FetchResult.ok lp pc)
    (hpc : pc.getD 0 ≤ 0) :
    (resolve_quote qs code).2.2 = 0 ∧
    (pc.getD 0 = 0 → (resolve_quote qs code).2.1 = 0) ∧
    (pc.getD 0 < 0 → (resolve_quote qs code).2.1 = lp.getD 0 - pc.getD 0) := by
  unfold resolve_quote
  rw [h]
  refine ⟨?_, ?_, ?_⟩
  · exact if_neg (not_lt.mpr hpc)
  · intro h0
    exact if_neg (not_not_intro h0)
  · intro hlt
    exact if_pos (ne_of_lt hlt)

/-- C5 witness: previous close -1 with price 5 gives `change_pct = 0` yet
`change_amt = 5 - (-1)`. -/
theorem c5_witness :
    (resolve_quote negPrevSource "601919.SS").2.2 = 0 ∧
    ((-1 : ℚ) = 0 → (resolve_quote negPrevSource "601919.SS").2.1 = 0) ∧
    ((-1 : ℚ) < 0 →
      (resolve_quote negPrevSource "601919.SS").2.1 = 5 - (-1)) :=
  c5_amended_nonpositive_prev negPrevSource "601919.SS" (some 5) (some (-1))
    rfl (by norm_num)

/-- C7 counterexample: after the hour-long ttl the cached pair (7.1, 5) is
expired, so a failing refetch returns the hardcoded (7.2, 5.3), not the
previous cached value; and a successful fetch reporting a zero or negative
price is returned unchecked, so the lookup can return a non-positive
rate. -/
theorem c7_counterexample :
    (cached_exchange_rates ⟨some (71/10, 5), 0⟩ 3600 RateFetch.fail).1
      = (72/10, 53/10) ∧
    ((72/10 : ℚ), (53/10 : ℚ)) ≠ ((71/10 : ℚ), (5 : ℚ)) ∧
    (cached_exchange_rates ⟨none, 0⟩ 0 (RateFetch.ok 0 (-1))).1 = (0, -1) := by
  refine ⟨?_, ?_, ?_⟩
  · norm_num [cached_exchange_rates, rate_cache_ttl, get_exchange_rates]
  · norm_num [Prod.ext_iff]
  · norm_num [cached_exchange_rates, get_exchange_rates]

/-- C7 amended: an unexpired cached value is returned without any fetch
occurring; on a cache miss or an expired entry the lookup runs the live
fetch, returning the fetched pair unchecked on success and the hardcoded
strictly positive fallback (7.2, 5.3) on failure; the lookup itself never
raises (it is a total function). -/
theorem c7_amended_rate_lookup (s : RateCacheState) (now : ℕ) (f : RateFetch) :
    (∀ v, s.value = some v → now - s.stored_at < rate_cache_ttl →
       (cached_exchange_rates s now f).1 = v) ∧
    ((s.value = none ∨ ¬now - s.stored_at < rate_cache_ttl) →
       (cached_exchange_rates s now f).1 = get_exchange_rates f) ∧
    get_exchange_rates RateFetch.fail = (7.2, 5.3) ∧
    0 < (get_exchange_rates RateFetch.fail).1 ∧
    0 < (get_exchange_rates RateFetch.fail).2 := by
  refine ⟨?_, ?_, rfl, by norm_num [get_exchange_rates], by norm_num [get_exchange_rates]⟩
  · intro v hv hfresh
    unfold cached_exchange_rates
    rw [hv]
    simp [hfresh]
  · intro hmiss
    unfold cached_exchange_rates
    cases hv : s.value with
    | none => rfl
    | some v =>
        rcases hmiss with hnone | hexp
        · rw [hv] at hnone; cases hnone
        · simp [hexp]

/-- C7 witness: a fresh cached pair (7.1, 5) is returned as-is even when
the live fetch would fail. -/
theorem c7_witness :
    (cached_exchange_rates ⟨some (71/10, 5), 0⟩ 100 RateFetch.fail).1
      = (71/10, 5) :=
  (c7_amended_rate_lookup ⟨some (71/10, 5), 0⟩ 100 RateFetch.fail).1
    (71/10, 5) rfl (by norm_num [rate_cache_ttl])

/-- C8: the aggregate of the three annotated market tables plus cash and
bond inputs satisfies the spec's formulas: net worth is total stock value
(sum of `mkt_val_cny` over all markets) plus converted cash plus converted
bond value; total day change is the sum over all positions of
`change_amt * qty * rate`, the CNY market's rate being 1; total profit is
the sum of `profit_cny` over all positions. -/
theorem c8_portfolio_aggregates (df_cn df_sg df_us : List AnnotatedRow)
    (cash_cny cash_sgd cash_usd bond_usd_val sgd_rate usd_rate : ℚ) :
    net_worth df_cn df_sg df_us cash_cny cash_sgd cash_usd bond_usd_val
        usd_rate sgd_rate
      = spec_total_stock [(df_cn, 1), (df_sg, sgd_rate), (df_us, usd_rate)]
        + (cash_cny + cash_sgd * sgd_rate + cash_usd * usd_rate)
        + bond_usd_val * usd_rate ∧
    total_day_gain df_cn df_sg df_us sgd_rate usd_rate
      = spec_total_day_change
          [(df_cn, 1), (df_sg, sgd_rate), (df_us, usd_rate)] ∧
    total_profit df_cn df_sg df_us
      = spec_total_profit [(df_cn, 1), (df_sg, sgd_rate), (df_us, usd_rate)] := by
  refine ⟨?_, ?_, ?_⟩
  · simp [net_worth, spec_total_stock]
    ring
  · simp [total_day_gain, spec_total_day_change, mul_one]
    ring
  · simp [total_profit, spec_total_profit]
    ring
